import Mathlib

/-!
A verification development for the single-file real-estate listing
extractor (`real_estate_agents.py`).

The extractor parses HTML with a permissive parser (BeautifulSoup's
`html.parser`) and then walks the resulting document tree.  The parser
itself is an external library that never fails; we therefore model a
parsed document directly as a tree of element and text nodes, and
translate the repository's own logic (`PropertyRecord.from_html`,
`SimpleExtractionAgent`, `main`) over that tree.

Modelling conventions:
* Python strings are Lean `String`s; Python's `str.strip()` is `pyStrip`
  (leading and trailing whitespace removed, with `Char.isWhitespace` as
  the whitespace class).
* BeautifulSoup's `Tag.get_text(strip=True)` concatenates the stripped
  descendant text nodes in document order (`getTextStrip`).
* `soup.find(...)` and `soup.find_all(...)` scan the descendants of the
  document in pre-order (document order); `tag.get(attr)` returns the
  attribute value or `None` (`Option`).
* Python's `s or None` for strings is `strOrNone`.
* A raised exception that the repository's code does not catch is
  modelled by `Option.none` / a dedicated error constructor.
-/

namespace RealEstate

/-- A node of the parsed HTML document: a text node, or an element with a
tag name, an attribute list and children. -/
inductive Node where
  | text (s : String)
  | elem (tag : String) (attrs : List (String × String)) (children : List Node)

/-- A parsed document: the top-level nodes in document order. -/
abbrev Doc := List Node

/-- Attribute lookup, as `Tag.get`: first binding of the key, if any. -/
def getAttr (attrs : List (String × String)) (k : String) : Option String :=
  (attrs.find? (fun p => p.1 == k)).map Prod.snd

/-- `tag.get(k)` on a node (`none` on a text node). -/
def attrOf (n : Node) : String → Option String :=
  match n with
  | .text _ => fun _ => none
  | .elem _ attrs _ => fun k => getAttr attrs k

/-- The tag name of a node (`none` on a text node). -/
def tagOf : Node → Option String
  | .text _ => none
  | .elem t _ _ => some t

mutual

/-- All descendants of a node (the node included), in document order. -/
def descNode : Node → List Node
  | .text s => [Node.text s]
  | .elem t a cs => Node.elem t a cs :: descList cs

/-- All descendants of a list of nodes, in document order. -/
def descList : List Node → List Node
  | [] => []
  | n :: ns => descNode n ++ descList ns

end

/-- Does the node match tag name `t`?  (`soup.find(t)` matches elements
only.) -/
def matchesTag (t : String) (n : Node) : Bool :=
  match n with
  | .elem tag _ _ => tag == t
  | .text _ => false

/-- Does the node carry attribute `k` with value `v`?
(`soup.find(attrs={k: v})` matches elements only.) -/
def hasAttrVal (k v : String) (n : Node) : Bool :=
  match n with
  | .elem _ attrs _ => getAttr attrs k == some v
  | .text _ => false

/-- `soup.find(...)` with an element filter: first matching element in
document order. -/
def findElem (p : Node → Bool) (doc : Doc) : Option Node :=
  (descList doc).find? p

/-- `soup.find_all(t)`: all elements with tag `t`, in document order. -/
def findAllTags (t : String) (doc : Doc) : List Node :=
  (descList doc).filter (matchesTag t)

/-- The text payload of a node, when it is a text node. -/
def textOf : Node → Option String
  | .text s => some s
  | .elem _ _ _ => none

/-- `soup.find(string=p)`: the first text node satisfying `p`, in
document order. -/
def findText (p : String → Bool) (doc : Doc) : Option String :=
  ((descList doc).filterMap textOf).find? p

/-- Python `str.strip()` over the character list. -/
def stripChars (l : List Char) : List Char :=
  ((l.dropWhile Char.isWhitespace).reverse.dropWhile Char.isWhitespace).reverse

/-- Python `str.strip()`. -/
def pyStrip (s : String) : String :=
  ⟨stripChars s.data⟩

mutual

/-- The descendant text-node contents of a node, in document order. -/
def textsNode : Node → List String
  | .text s => [s]
  | .elem _ _ cs => textsList cs

/-- The descendant text-node contents of a list of nodes. -/
def textsList : List Node → List String
  | [] => []
  | n :: ns => textsNode n ++ textsList ns

end

/-- BeautifulSoup `get_text(strip=True)` (default separator `""`): the
concatenation of the stripped descendant text nodes. -/
def getTextStrip (n : Node) : String :=
  ⟨((textsNode n).map (fun s => stripChars s.data)).flatten⟩

/-- Python `s or None` for an optional string context. -/
def strOrNone (s : String) : Option String :=
  if s = "" then none else some s

/-- The `PropertyRecord` dataclass: every field defaults to absent. -/
structure PropertyRecord where
  address : Option String := none
  price : Option String := none
  bedrooms : Option Int := none
  bathrooms : Option Int := none
  square_feet : Option Int := none
  lot_size : Option String := none
  year_built : Option Int := none
  property_type : Option String := none
  listing_agent : Option String := none
  days_on_market : Option Int := none
  mls_number : Option String := none
  description : Option String := none
  image_urls : List String := []
  neighborhood : Option String := none
deriving DecidableEq

/-- The address heuristic of `from_html`:
`soup.find(attrs={"data-testid": "address"}) or soup.find("address")`,
then `address_el.get_text(strip=True) or None`.  (A found `Tag` is always
truthy in BeautifulSoup, so the fallback fires only when the first `find`
returns `None`.) -/
def addressFind (doc : Doc) : Option Node :=
  (findElem (hasAttrVal "data-testid" "address") doc).orElse
    (fun _ => findElem (matchesTag "address") doc)

/-- `address = address_el.get_text(strip=True) or None` when an element
was found, else `None`. -/
def addressOf (doc : Doc) : Option String :=
  match addressFind doc with
  | some el => strOrNone (getTextStrip el)
  | none => none

/-- Is `"$" in s` (Python substring test for the one-character needle)? -/
def hasDollar (s : String) : Bool :=
  s.data.contains '$'

/-- The price heuristic of `from_html`:
`soup.find(attrs={"data-testid": "price"}) or soup.find(string=...)`,
then `get_text(strip=True)` on a tag or `str(...).strip()` on a text
node.  Note there is no `or None` here: a matched element with
whitespace-only text yields the empty string.  (A matched text node is
necessarily truthy: it contains `"$"`.) -/
def priceOf (doc : Doc) : Option String :=
  match findElem (hasAttrVal "data-testid" "price") doc with
  | some el => some (getTextStrip el)
  | none => (findText hasDollar doc).map pyStrip

/-- The description heuristic of `from_html`:
`soup.find(attrs={"data-testid": "home-description-text"}) or
soup.find("meta", attrs={"name": "description"})`; a matched `meta` tag
contributes `desc_el.get("content").strip() or None`, any other matched
element contributes `desc_el.get_text(strip=True) or None`.
The outer `none` models the uncaught `AttributeError` raised by
`desc_el.get("content").strip()` when the matched `meta` tag has no
`content` attribute (`get` returns `None`). -/
def descFind (doc : Doc) : Option Node :=
  (findElem (hasAttrVal "data-testid" "home-description-text") doc).orElse
    (fun _ => findElem
      (fun n => matchesTag "meta" n && hasAttrVal "name" "description" n) doc)

/-- The description value contributed by the found element (see
`descriptionOf`); `none` is the uncaught `AttributeError`. -/
def descFromEl (el : Node) : Option (Option String) :=
  if tagOf el = some "meta" then
    match attrOf el "content" with
    | none => none
    | some c => some (strOrNone (pyStrip c))
  else
    some (strOrNone (getTextStrip el))

def descriptionOf (doc : Doc) : Option (Option String) :=
  match descFind doc with
  | none => some none
  | some el => descFromEl el

/-- The body of the image comprehension: `img.get("src")` guarded by the
comprehension's truthiness filter `if img.get("src")`.  An absent `src`
gives `None` (falsy) and an empty `src` gives `""` (falsy); both are
skipped. -/
def imgSrc (n : Node) : Option String :=
  (attrOf n "src").bind (fun v => if v = "" then none else some v)

/-- The image heuristic of `from_html`:
`[img.get("src") for img in soup.find_all("img") if img.get("src")][:5]`. -/
def imageUrlsOf (doc : Doc) : List String :=
  ((findAllTags "img" doc).filterMap imgSrc).take 5

/-- `PropertyRecord.from_html` over a parsed document.  The result is
`none` exactly when the description branch raises (see
`descriptionOf`); otherwise the record is built with the three heuristic
fields and the image list, every other field keeping its `None`
default. -/
def from_html (doc : Doc) : Option PropertyRecord :=
  match descriptionOf doc with
  | none => none
  | some d =>
    some { address := addressOf doc
           price := priceOf doc
           description := d
           image_urls := imageUrlsOf doc }

/-- `SimpleExtractionAgent.validate_schema`: returns the record
unchanged. -/
def validate_schema (record : PropertyRecord) : PropertyRecord :=
  record

/-- The configuration stored by `SimpleExtractionAgent.__init__` from the
environment variables `API_TOKEN`, `PROXY_ZONE`, `WEB_UNBLOCK_ZONE` and
`LLM_API_KEY`. -/
structure SimpleExtractionAgent where
  api_token : Option String := none
  proxy_zone : Option String := none
  web_unblock_zone : Option String := none
  llm_api_key : Option String := none
deriving DecidableEq

/-- The outcome of the single `requests.get` call: a transport-level
failure, or a response with an HTTP status and a body.  The body stands
for the parsed form of `response.text` (the permissive HTML parser is
external to the repository and never fails). -/
inductive NetOutcome where
  | connectionError (msg : String)
  | timeout
  | response (status : Nat) (body : Doc)

/-- The exceptions `fetch_listing_html` can let escape: the transport
errors of `requests.get`, and the `HTTPError` raised by
`response.raise_for_status()`. -/
inductive FetchError where
  | connectionError (msg : String)
  | timeout
  | httpError (status : Nat)
deriving DecidableEq

/-- `SimpleExtractionAgent.fetch_listing_html`: propagates transport
errors, and `raise_for_status` turns a 4xx or 5xx status into an
`HTTPError`; any other status returns the body. -/
def fetch_listing_html (net : NetOutcome) : Except FetchError Doc :=
  match net with
  | .connectionError m => .error (.connectionError m)
  | .timeout => .error .timeout
  | .response s b => if 400 ≤ s ∧ s < 600 then .error (.httpError s) else .ok b

/-- `SimpleExtractionAgent.extract`: fetch, parse, validate.  The inner
`Option` models the parse-stage exception of `from_html`; the agent
configuration plays no role in the body. -/
def SimpleExtractionAgent.extract (_agent : SimpleExtractionAgent)
    (net : NetOutcome) : Except FetchError (Option PropertyRecord) :=
  match fetch_listing_html net with
  | .error e => .error e
  | .ok doc => .ok ((from_html doc).map validate_schema)

/-- How a run of `main` ends: an uncaught fetch exception (non-zero
process exit, nothing written), an uncaught parse exception (likewise),
or success (payload written to the output file, exit code 0). -/
inductive RunResult where
  | fetchFailure (e : FetchError)
  | parseCrash
  | success (record : PropertyRecord)
deriving DecidableEq

/-- `main`: builds the agent from the environment, extracts, and writes
the payload.  There is no `try`/`except`: any exception of
`extract` propagates and aborts before the output file is opened. -/
def runMain (agent : SimpleExtractionAgent) (net : NetOutcome) : RunResult :=
  match agent.extract net with
  | .error e => .fetchFailure e
  | .ok none => .parseCrash
  | .ok (some record) => .success record

/-- The `data` part of the JSON payload written to the output file, when
one is written at all. -/
def outputFile : RunResult → Option PropertyRecord
  | .success record => some record
  | _ => none

/-- Does the process exit with a non-zero code?  `main` returns 0 on
success; an uncaught exception makes `raise SystemExit(main())`
unreachable and the interpreter exits non-zero. -/
def exitsNonzero : RunResult → Bool
  | .success _ => false
  | _ => true

/-! ### Spec-level traversals

The specification describes `image_urls` as the source attributes of the
image elements in document order, and the price fallback as the first
text node containing a currency symbol anywhere in the document.  The
following structural traversals state those descriptions directly; below
we prove they agree with the `find` / `find_all` based embedding. -/

mutual

/-- The non-empty `src` attributes of the `img` elements at or below a
node, in document order. -/
def srcsNode : Node → List String
  | .text _ => []
  | .elem t attrs cs =>
    (if t = "img" then
      match getAttr attrs "src" with
      | some v => if v = "" then [] else [v]
      | none => []
    else []) ++ srcsList cs

/-- The non-empty `src` attributes of the `img` elements below a list of
nodes, in document order. -/
def srcsList : List Node → List String
  | [] => []
  | n :: ns => srcsNode n ++ srcsList ns

end

mutual

/-- The first text node containing `"$"` at or below a node. -/
def firstDollarNode : Node → Option String
  | .text s => if hasDollar s then some s else none
  | .elem _ _ cs => firstDollarList cs

/-- The first text node containing `"$"` below a list of nodes, in
document order. -/
def firstDollarList : List Node → Option String
  | [] => none
  | n :: ns => (firstDollarNode n).or (firstDollarList ns)

end

/-! ### Concrete example documents -/

/-- `<meta name="description">` with no `content` attribute. -/
def contentlessMetaDoc : Doc := [Node.elem "meta" [("name", "description")] []]

/-- `<meta name="description" content="Cozy 3BR home">` and nothing else. -/
def cozyMetaDoc : Doc :=
  [Node.elem "meta" [("name", "description"), ("content", "Cozy 3BR home")] []]

/-- One `img` element whose `src` attribute is present but empty. -/
def emptySrcImgDoc : Doc := [Node.elem "img" [("src", "")] []]

/-- A marked address element with text `" 123 Main St "`. -/
def addrTrimDoc : Doc :=
  [Node.elem "div" [("data-testid", "address")] [Node.text " 123 Main St "]]

/-- A marked price element with whitespace-only text. -/
def wsPriceDoc : Doc :=
  [Node.elem "div" [("data-testid", "price")] [Node.text "   "]]

/-- No price marker, but a text node containing `"$450,000"`. -/
def dollarTextDoc : Doc :=
  [Node.elem "p" [] [Node.text "Listed at $450,000"]]

/-- Two `img` elements with non-empty sources. -/
def twoImgDoc : Doc :=
  [Node.elem "img" [("src", "a.jpg")] [], Node.elem "img" [("src", "b.jpg")] []]

/-- An empty-`src` image followed by a real one. -/
def emptySrcPairDoc : Doc :=
  [Node.elem "img" [("src", "")] [], Node.elem "img" [("src", "a.jpg")] []]

/-- An attribute-less image followed by a real one. -/
def noSrcPairDoc : Doc :=
  [Node.elem "img" [] [], Node.elem "img" [("src", "a.jpg")] []]

/-! ### Whitespace stripping: basic lemmas -/

theorem head?_dropWhile {α : Type} (p : α → Bool) (l : List α) :
    ∀ c ∈ (l.dropWhile p).head?, p c = false := by
  induction l with
  | nil => simp
  | cons a t ih =>
    cases hpa : p a with
    | true => simpa [List.dropWhile_cons, hpa] using ih
    | false => simp [List.dropWhile_cons, hpa]

theorem dropWhile_eq_self_of_head {α : Type} (p : α → Bool) (l : List α)
    (h : ∀ c ∈ l.head?, p c = false) : l.dropWhile p = l := by
  cases l with
  | nil => rfl
  | cons a t =>
    have ha : p a = false := h a (by simp)
    simp [List.dropWhile_cons, ha]

theorem dropWhile_eq_self_of_length {α : Type} (p : α → Bool) (l : List α)
    (h : (l.dropWhile p).length = l.length) : l.dropWhile p = l := by
  cases l with
  | nil => rfl
  | cons a t =>
    cases hpa : p a with
    | false => simp [List.dropWhile_cons, hpa]
    | true =>
      exfalso
      rw [List.dropWhile_cons, if_pos (by simp [hpa])] at h
      simp only [List.length_cons] at h
      have := (List.dropWhile_sublist (l := t) p).length_le
      omega

theorem rstrip_head (p : Char → Bool) (d : List Char)
    (hd : ∀ c ∈ d.head?, p c = false) :
    ((d.reverse.dropWhile p).reverse).dropWhile p = (d.reverse.dropWhile p).reverse := by
  apply dropWhile_eq_self_of_head
  intro c hc
  have hsplit : d = (d.reverse.dropWhile p).reverse ++ (d.reverse.takeWhile p).reverse := by
    calc d = d.reverse.reverse := (List.reverse_reverse d).symm
    _ = (d.reverse.takeWhile p ++ d.reverse.dropWhile p).reverse := by
        rw [List.takeWhile_append_dropWhile]
    _ = (d.reverse.dropWhile p).reverse ++ (d.reverse.takeWhile p).reverse := by
        rw [List.reverse_append]
  cases hs : (d.reverse.dropWhile p).reverse with
  | nil => rw [hs] at hc; simp at hc
  | cons x xs =>
    rw [hs] at hc
    have hcx : x = c := by simpa using hc
    subst hcx
    apply hd
    rw [hsplit, hs]
    simp

theorem stripChars_idem (l : List Char) :
    stripChars (stripChars l) = stripChars l := by
  have hd : ∀ c ∈ (l.dropWhile Char.isWhitespace).head?, Char.isWhitespace c = false :=
    head?_dropWhile _ _
  have h1 : (stripChars l).dropWhile Char.isWhitespace = stripChars l :=
    rstrip_head _ _ hd
  conv_lhs => rw [stripChars]
  rw [h1]
  have h2 : (stripChars l).reverse =
      ((l.dropWhile Char.isWhitespace).reverse).dropWhile Char.isWhitespace := by
    unfold stripChars
    rw [List.reverse_reverse]
  rw [h2, List.dropWhile_idempotent, ← h2, List.reverse_reverse]

theorem trimmed_parts (l : List Char) (h : stripChars l = l) :
    l.dropWhile Char.isWhitespace = l ∧
    l.reverse.dropWhile Char.isWhitespace = l.reverse := by
  have hlen1 : (l.dropWhile Char.isWhitespace).length ≤ l.length :=
    (List.dropWhile_sublist _).length_le
  have hlen2 : (stripChars l).length ≤ (l.dropWhile Char.isWhitespace).length := by
    unfold stripChars
    rw [List.length_reverse]
    calc ((l.dropWhile Char.isWhitespace).reverse.dropWhile Char.isWhitespace).length
        ≤ (l.dropWhile Char.isWhitespace).reverse.length :=
          (List.dropWhile_sublist _).length_le
    _ = (l.dropWhile Char.isWhitespace).length := List.length_reverse _
  rw [h] at hlen2
  have h1 : l.dropWhile Char.isWhitespace = l :=
    dropWhile_eq_self_of_length _ _ (le_antisymm hlen1 hlen2)
  refine ⟨h1, ?_⟩
  have h3 : ((l.reverse.dropWhile Char.isWhitespace)).reverse = l := by
    have h4 := h
    unfold stripChars at h4
    rw [h1] at h4
    exact h4
  have h5 := congrArg List.reverse h3
  rwa [List.reverse_reverse] at h5

theorem trimmed_of_parts (l : List Char)
    (h1 : l.dropWhile Char.isWhitespace = l)
    (h2 : l.reverse.dropWhile Char.isWhitespace = l.reverse) :
    stripChars l = l := by
  unfold stripChars
  rw [h1, h2, List.reverse_reverse]

theorem trimmed_append (a b : List Char)
    (ha : stripChars a = a) (hb : stripChars b = b) :
    stripChars (a ++ b) = a ++ b := by
  obtain ⟨ha1, ha2⟩ := trimmed_parts a ha
  obtain ⟨hb1, hb2⟩ := trimmed_parts b hb
  apply trimmed_of_parts
  · cases a with
    | nil => simpa using hb1
    | cons x xs =>
      have hx : Char.isWhitespace x = false := by
        have hh := head?_dropWhile Char.isWhitespace (x :: xs)
        rw [ha1] at hh
        exact hh x (by simp)
      simp [List.dropWhile_cons, hx]
  · rw [List.reverse_append]
    cases hbc : b.reverse with
    | nil =>
      simpa using ha2
    | cons y ys =>
      have hy : Char.isWhitespace y = false := by
        have hh := head?_dropWhile Char.isWhitespace b.reverse
        rw [hb2] at hh
        exact hh y (by simp [hbc])
      simp [List.dropWhile_cons, hy]

theorem trimmed_flatten (L : List (List Char)) (h : ∀ x ∈ L, stripChars x = x) :
    stripChars L.flatten = L.flatten := by
  induction L with
  | nil => rfl
  | cons a t ih =>
    rw [List.flatten_cons]
    exact trimmed_append _ _ (h a (by simp)) (ih (fun x hx => h x (by simp [hx])))

theorem pyStrip_getTextStrip (n : Node) :
    pyStrip (getTextStrip n) = getTextStrip n := by
  unfold pyStrip getTextStrip
  apply congrArg String.mk
  apply trimmed_flatten
  intro x hx
  simp at hx
  obtain ⟨s, _, rfl⟩ := hx
  exact stripChars_idem _

theorem pyStrip_idem (s : String) : pyStrip (pyStrip s) = pyStrip s :=
  congrArg String.mk (stripChars_idem s.data)

theorem strOrNone_some (s t : String) (h : strOrNone s = some t) :
    t = s ∧ s ≠ "" := by
  unfold strOrNone at h
  by_cases hs : s = ""
  · rw [if_pos hs] at h
    cases h
  · rw [if_neg hs] at h
    exact ⟨(Option.some_inj.mp h).symm, hs⟩

/-! ### Agreement of the spec-level traversals with the embedding -/

/-- Evaluating the comprehension body on an element. -/
theorem imgSrc_elem (t : String) (attrs : List (String × String)) (cs : List Node) :
    imgSrc (Node.elem t attrs cs) =
      match getAttr attrs "src" with
      | some v => if v = "" then none else some v
      | none => none := by
  show (getAttr attrs "src").bind (fun v => if v = "" then none else some v) = _
  cases getAttr attrs "src" <;> rfl

mutual

theorem srcs_descNode (n : Node) :
    ((descNode n).filter (matchesTag "img")).filterMap imgSrc = srcsNode n := by
  cases n with
  | text s => rfl
  | elem t attrs cs =>
    rw [descNode, srcsNode]
    have htail := srcs_descList cs
    by_cases ht : t = "img"
    · subst ht
      rw [List.filter_cons, if_pos (by simp [matchesTag]), List.filterMap_cons,
        imgSrc_elem]
      cases hsrc : getAttr attrs "src" with
      | none => simpa using htail
      | some v =>
        by_cases hv : v = ""
        · simpa [hv] using htail
        · simpa [hv] using htail
    · rw [List.filter_cons, if_neg (by simp [matchesTag, ht]), if_neg ht]
      simpa using htail

theorem srcs_descList (l : List Node) :
    ((descList l).filter (matchesTag "img")).filterMap imgSrc = srcsList l := by
  cases l with
  | nil => rfl
  | cons n ns =>
    rw [descList, srcsList, List.filter_append, List.filterMap_append,
      srcs_descNode n, srcs_descList ns]

end

/-- `imageUrlsOf` is the first five non-empty image sources, in document
order. -/
theorem imageUrlsOf_eq_srcs (doc : Doc) :
    imageUrlsOf doc = (srcsList doc).take 5 := by
  unfold imageUrlsOf findAllTags
  rw [srcs_descList]

/-- The comprehension body never produces the empty string. -/
theorem imgSrc_ne_empty (n : Node) : imgSrc n ≠ some "" := by
  cases n with
  | text s => simp [imgSrc, attrOf]
  | elem t attrs cs =>
    rw [imgSrc_elem]
    cases hsrc : getAttr attrs "src" with
    | none => simp
    | some v =>
      by_cases hv : v = "" <;> simp [hv]

/-- No empty string occurs among the collected image sources. -/
theorem srcsList_ne_empty (l : List Node) : "" ∉ srcsList l := by
  rw [← srcs_descList]
  intro h
  obtain ⟨n, _, hn⟩ := List.mem_filterMap.mp h
  exact imgSrc_ne_empty n hn

mutual

theorem dollar_descNode (n : Node) :
    ((descNode n).filterMap textOf).find? hasDollar = firstDollarNode n := by
  cases n with
  | text s =>
    rw [descNode, firstDollarNode]
    simp only [List.filterMap_cons, List.filterMap_nil, textOf, List.find?]
    cases hds : hasDollar s <;> simp [hds]
  | elem t attrs cs =>
    rw [descNode, firstDollarNode, List.filterMap_cons]
    simp only [textOf]
    exact dollar_descList cs

theorem dollar_descList (l : List Node) :
    ((descList l).filterMap textOf).find? hasDollar = firstDollarList l := by
  cases l with
  | nil => rfl
  | cons n ns =>
    rw [descList, firstDollarList, List.filterMap_append, List.find?_append,
      dollar_descNode n, dollar_descList ns]

end

/-- `findText hasDollar` is the first `"$"`-containing text node in
document order. -/
theorem findText_dollar (doc : Doc) :
    findText hasDollar doc = firstDollarList doc :=
  dollar_descList doc

/-- The record returned by `from_html` (when it does not raise) is built
from the four heuristic values; every other field keeps its default. -/
theorem from_html_fields (doc : Doc) (r : PropertyRecord)
    (h : from_html doc = some r) :
    r.address = addressOf doc ∧ r.price = priceOf doc ∧
    descriptionOf doc = some r.description ∧ r.image_urls = imageUrlsOf doc ∧
    r.bedrooms = none ∧ r.bathrooms = none ∧ r.square_feet = none ∧
    r.lot_size = none ∧ r.year_built = none ∧ r.property_type = none ∧
    r.listing_agent = none ∧ r.days_on_market = none ∧ r.mls_number = none ∧
    r.neighborhood = none := by
  unfold from_html at h
  cases hd : descriptionOf doc with
  | none => rw [hd] at h; exact Option.noConfusion h
  | some d =>
    rw [hd] at h
    have h2 := Option.some_inj.mp h
    subst h2
    exact ⟨rfl, rfl, rfl, rfl, rfl, rfl, rfl, rfl, rfl, rfl, rfl, rfl, rfl, rfl⟩

/-! ### Evaluating the per-field heuristics by cases on the `find`s -/

theorem addressOf_none (doc : Doc) (h : addressFind doc = none) :
    addressOf doc = none := by
  unfold addressOf
  rw [h]

theorem addressOf_some (doc : Doc) (el : Node) (h : addressFind doc = some el) :
    addressOf doc = strOrNone (getTextStrip el) := by
  unfold addressOf
  rw [h]

theorem priceOf_marker (doc : Doc) (el : Node)
    (h : findElem (hasAttrVal "data-testid" "price") doc = some el) :
    priceOf doc = some (getTextStrip el) := by
  unfold priceOf
  rw [h]

theorem priceOf_fallback (doc : Doc)
    (h : findElem (hasAttrVal "data-testid" "price") doc = none) :
    priceOf doc = (findText hasDollar doc).map pyStrip := by
  unfold priceOf
  rw [h]

theorem descriptionOf_nofind (doc : Doc) (h : descFind doc = none) :
    descriptionOf doc = some none := by
  unfold descriptionOf
  rw [h]

theorem descriptionOf_found (doc : Doc) (el : Node) (h : descFind doc = some el) :
    descriptionOf doc = descFromEl el := by
  unfold descriptionOf
  rw [h]

theorem descFromEl_nonmeta (el : Node) (hm : ¬tagOf el = some "meta") :
    descFromEl el = some (strOrNone (getTextStrip el)) := by
  unfold descFromEl
  rw [if_neg hm]

theorem descFromEl_meta_content (el : Node) (c : String)
    (hm : tagOf el = some "meta") (hc : attrOf el "content" = some c) :
    descFromEl el = some (strOrNone (pyStrip c)) := by
  unfold descFromEl
  rw [if_pos hm, hc]

theorem descFromEl_meta_nocontent (el : Node)
    (hm : tagOf el = some "meta") (hc : attrOf el "content" = none) :
    descFromEl el = none := by
  unfold descFromEl
  rw [if_pos hm, hc]

/-! ### The claims -/

/-- C1: the spec states that `extract` (`PropertyRecord.from_html`) is a
total function that never raises, explicitly including documents where a
matched element lacks the expected attribute.  The code violates this:
on a document whose `meta` tag named `description` has no `content`
attribute, `desc_el.get("content")` returns `None` and `.strip()` raises
an uncaught `AttributeError`.  This theorem evaluates the embedding at
that failing input: the run aborts instead of returning a record. -/
theorem c1_from_html_crashes_on_contentless_meta :
    from_html contentlessMetaDoc = none ∧
    descriptionOf contentlessMetaDoc = none :=
  ⟨rfl, rfl⟩

/-- C2 counterexample: a document with a single `img` element whose `src`
attribute is present but empty has one image element with a source
attribute, yet `image_urls` is empty — so the claimed "length equals the
count of image elements with a source attribute when that count ≤ 5"
fails at this input. -/
theorem c2_empty_src_attribute_counterexample :
    (findAllTags "img" emptySrcImgDoc).countP (fun n => (attrOf n "src").isSome) = 1 ∧
    (from_html emptySrcImgDoc).map (fun r => r.image_urls.length) = some 0 :=
  ⟨rfl, rfl⟩

/-- C2 (amended): for every document, `image_urls` has length at most 5;
it is exactly the list of non-empty image sources in document order,
truncated to the first 5; and when at most 5 such sources exist it is
that whole list (so its length is the count of image elements with a
non-empty source attribute). -/
theorem c2_image_urls_cap_and_order (doc : Doc) (r : PropertyRecord)
    (h : from_html doc = some r) :
    r.image_urls.length ≤ 5 ∧
    r.image_urls = (srcsList doc).take 5 ∧
    ((srcsList doc).length ≤ 5 → r.image_urls = srcsList doc) := by
  have himg := (from_html_fields doc r h).2.2.2.1
  rw [himg, imageUrlsOf_eq_srcs]
  refine ⟨?_, rfl, ?_⟩
  · rw [List.length_take]
    exact Nat.min_le_left _ _
  · intro hlen
    exact List.take_of_length_le hlen

/-- Witness for C2 at a two-image document. -/
theorem c2_witness :
    from_html twoImgDoc = some { image_urls := ["a.jpg", "b.jpg"] } ∧
    ({ image_urls := ["a.jpg", "b.jpg"] } : PropertyRecord).image_urls =
      srcsList twoImgDoc ∧
    ({ image_urls := ["a.jpg", "b.jpg"] } : PropertyRecord).image_urls.length ≤ 5 :=
  ⟨rfl,
   (c2_image_urls_cap_and_order twoImgDoc { image_urls := ["a.jpg", "b.jpg"] }
      rfl).2.2 (by decide),
   (c2_image_urls_cap_and_order twoImgDoc { image_urls := ["a.jpg", "b.jpg"] }
      rfl).1⟩

/-- C3 counterexample: HTTP 304 is a non-2xx status, yet
`raise_for_status` raises only for 4xx/5xx, so the run succeeds: the
output file is written and the process exits 0.  The claim's "non-2xx
HTTP status" characterization of fetch failure is therefore wrong. -/
theorem c3_non2xx_304_counterexample :
    fetch_listing_html (NetOutcome.response 304 []) = Except.ok [] ∧
    runMain {} (NetOutcome.response 304 []) = RunResult.success {} ∧
    outputFile (runMain {} (NetOutcome.response 304 [])) = some {} ∧
    exitsNonzero (runMain {} (NetOutcome.response 304 [])) = false ∧
    ¬(200 ≤ 304 ∧ 304 < 300) :=
  ⟨rfl, rfl, rfl, rfl, by omega⟩

/-- C3 (amended): for every run in which the fetch fails — connection
error, timeout, or an HTTP 4xx/5xx status such as 404 — `main`
propagates the failure unchanged with no retry, the process exits
non-zero, and no output file is written; and those statuses (400–599)
are exactly the ones `raise_for_status` turns into errors. -/
theorem c3_fetch_failure_aborts (agent : SimpleExtractionAgent)
    (net : NetOutcome) (e : FetchError)
    (h : fetch_listing_html net = Except.error e) :
    runMain agent net = RunResult.fetchFailure e ∧
    exitsNonzero (runMain agent net) = true ∧
    outputFile (runMain agent net) = none ∧
    (∀ s b, 400 ≤ s → s < 600 →
      fetch_listing_html (NetOutcome.response s b) =
        Except.error (FetchError.httpError s)) ∧
    (∀ m, fetch_listing_html (NetOutcome.connectionError m) =
      Except.error (FetchError.connectionError m)) ∧
    fetch_listing_html NetOutcome.timeout = Except.error FetchError.timeout := by
  have hrun : runMain agent net = RunResult.fetchFailure e := by
    unfold runMain SimpleExtractionAgent.extract
    rw [h]
  refine ⟨hrun, by rw [hrun]; rfl, by rw [hrun]; rfl, ?_, fun m => rfl, rfl⟩
  intro s b h4 h6
  show (if 400 ≤ s ∧ s < 600 then Except.error (FetchError.httpError s)
    else Except.ok b) = Except.error (FetchError.httpError s)
  rw [if_pos ⟨h4, h6⟩]

/-- Witness for C3 at a 404 response. -/
theorem c3_witness :
    runMain {} (NetOutcome.response 404 []) =
      RunResult.fetchFailure (FetchError.httpError 404) ∧
    outputFile (runMain {} (NetOutcome.response 404 [])) = none :=
  ⟨(c3_fetch_failure_aborts {} (NetOutcome.response 404 [])
      (FetchError.httpError 404) rfl).1,
   (c3_fetch_failure_aborts {} (NetOutcome.response 404 [])
      (FetchError.httpError 404) rfl).2.2.1⟩

/-- C4 counterexample: a marked price element with whitespace-only text
yields `price = some ""` — the empty string, not `None` — because the
price branch, unlike address and description, has no `or None` guard. -/
theorem c4_price_empty_string_counterexample :
    (from_html wsPriceDoc).map PropertyRecord.price = some (some "") :=
  rfl

/-- C4 (amended): every extracted text field is whitespace-trimmed, and
address and description normalize empty or whitespace-only matched text
to `None` (never the empty string); price is also trimmed, but a marked
price element with empty or whitespace-only text yields the empty
string rather than `None`.  The marked-address example trims
`" 123 Main St "` to `"123 Main St"`. -/
theorem c4_text_trimming_and_absence (doc : Doc) (r : PropertyRecord)
    (h : from_html doc = some r) :
    (∀ s, r.address = some s → pyStrip s = s ∧ s ≠ "") ∧
    (∀ s, r.description = some s → pyStrip s = s ∧ s ≠ "") ∧
    (∀ s, r.price = some s → pyStrip s = s) ∧
    (from_html addrTrimDoc).map PropertyRecord.address =
      some (some "123 Main St") := by
  obtain ⟨ha, hp, hd, -, -, -, -, -, -, -, -, -, -, -⟩ := from_html_fields doc r h
  refine ⟨?_, ?_, ?_, rfl⟩
  · intro s hs
    rw [ha] at hs
    cases hfind : addressFind doc with
    | none =>
      rw [addressOf_none doc hfind] at hs
      exact Option.noConfusion hs
    | some el =>
      rw [addressOf_some doc el hfind] at hs
      obtain ⟨rfl, hne⟩ := strOrNone_some _ _ hs
      exact ⟨pyStrip_getTextStrip el, hne⟩
  · intro s hs
    cases hfind : descFind doc with
    | none =>
      rw [descriptionOf_nofind doc hfind] at hd
      rw [← Option.some_inj.mp hd] at hs
      exact Option.noConfusion hs
    | some el =>
      rw [descriptionOf_found doc el hfind] at hd
      by_cases hm : tagOf el = some "meta"
      · cases hc : attrOf el "content" with
        | none =>
          rw [descFromEl_meta_nocontent el hm hc] at hd
          exact Option.noConfusion hd
        | some c =>
          rw [descFromEl_meta_content el c hm hc] at hd
          rw [← Option.some_inj.mp hd] at hs
          obtain ⟨rfl, hne⟩ := strOrNone_some _ _ hs
          exact ⟨pyStrip_idem c, hne⟩
      · rw [descFromEl_nonmeta el hm] at hd
        rw [← Option.some_inj.mp hd] at hs
        obtain ⟨rfl, hne⟩ := strOrNone_some _ _ hs
        exact ⟨pyStrip_getTextStrip el, hne⟩
  · intro s hs
    rw [hp] at hs
    cases hfind : findElem (hasAttrVal "data-testid" "price") doc with
    | some el =>
      rw [priceOf_marker doc el hfind] at hs
      rw [← Option.some_inj.mp hs]
      exact pyStrip_getTextStrip el
    | none =>
      rw [priceOf_fallback doc hfind] at hs
      cases hft : findText hasDollar doc with
      | none =>
        rw [hft] at hs
        exact Option.noConfusion hs
      | some raw =>
        rw [hft] at hs
        rw [← Option.some_inj.mp hs]
        exact pyStrip_idem raw

/-- Witness for C4 at the marked-address document. -/
theorem c4_witness :
    from_html addrTrimDoc = some { address := some "123 Main St" } ∧
    pyStrip "123 Main St" = "123 Main St" ∧ "123 Main St" ≠ "" :=
  ⟨rfl,
   (c4_text_trimming_and_absence addrTrimDoc { address := some "123 Main St" }
      rfl).1 "123 Main St" rfl⟩

/-- C5: price extraction is first-match-wins: a marked price element is
used when present; otherwise the first text node in document order
containing `"$"` is used (stripped, with no currency or separator
normalization); otherwise price is absent.  The text node
`"Listed at $450,000"` yields exactly `"Listed at $450,000"`,
containing `"$450,000"` verbatim. -/
theorem c5_price_first_match_wins (doc : Doc) (r : PropertyRecord)
    (h : from_html doc = some r) :
    (∀ el, findElem (hasAttrVal "data-testid" "price") doc = some el →
      r.price = some (getTextStrip el)) ∧
    (findElem (hasAttrVal "data-testid" "price") doc = none →
      r.price = (firstDollarList doc).map pyStrip) ∧
    (findElem (hasAttrVal "data-testid" "price") doc = none →
      firstDollarList doc = none → r.price = none) ∧
    (from_html dollarTextDoc).map PropertyRecord.price =
      some (some "Listed at $450,000") := by
  have hp := (from_html_fields doc r h).2.1
  refine ⟨?_, ?_, ?_, rfl⟩
  · intro el hel
    rw [hp, priceOf_marker doc el hel]
  · intro hnone
    rw [hp, priceOf_fallback doc hnone, findText_dollar]
  · intro hnone hdol
    rw [hp, priceOf_fallback doc hnone, findText_dollar, hdol]
    rfl

/-- Witness for C5 at the `"$"`-fallback document. -/
theorem c5_witness :
    from_html dollarTextDoc = some { price := some "Listed at $450,000" } ∧
    ({ price := some "Listed at $450,000" } : PropertyRecord).price =
      (firstDollarList dollarTextDoc).map pyStrip :=
  ⟨rfl,
   (c5_price_first_match_wins dollarTextDoc
      { price := some "Listed at $450,000" } rfl).2.1 rfl⟩

/-- C6: description extraction is first-match-wins: the marked
description element is used when present, else the `content` attribute
of a `meta` tag named `description`, else the field is absent; and the
`"Cozy 3BR home"` meta-only document yields that description with a
null address. -/
theorem c6_description_chain (doc : Doc) (r : PropertyRecord)
    (h : from_html doc = some r) :
    (∀ el, descFind doc = some el → ¬tagOf el = some "meta" →
      r.description = strOrNone (getTextStrip el)) ∧
    (∀ el c, descFind doc = some el → tagOf el = some "meta" →
      attrOf el "content" = some c → r.description = strOrNone (pyStrip c)) ∧
    (descFind doc = none → r.description = none) ∧
    (from_html cozyMetaDoc).map (fun r => (r.description, r.address)) =
      some (some "Cozy 3BR home", none) := by
  have hd := (from_html_fields doc r h).2.2.1
  refine ⟨?_, ?_, ?_, rfl⟩
  · intro el hel hm
    rw [descriptionOf_found doc el hel, descFromEl_nonmeta el hm] at hd
    exact (Option.some_inj.mp hd).symm
  · intro el c hel hm hc
    rw [descriptionOf_found doc el hel, descFromEl_meta_content el c hm hc] at hd
    exact (Option.some_inj.mp hd).symm
  · intro hnone
    rw [descriptionOf_nofind doc hnone] at hd
    exact (Option.some_inj.mp hd).symm

/-- Witness for C6 at the meta-description document. -/
theorem c6_witness :
    from_html cozyMetaDoc = some { description := some "Cozy 3BR home" } ∧
    ({ description := some "Cozy 3BR home" } : PropertyRecord).description =
      strOrNone (pyStrip "Cozy 3BR home") :=
  ⟨rfl,
   (c6_description_chain cozyMetaDoc { description := some "Cozy 3BR home" }
      rfl).2.1
     (Node.elem "meta" [("name", "description"), ("content", "Cozy 3BR home")] [])
     "Cozy 3BR home" rfl rfl rfl⟩

/-- C7: the ten reserved fields (bedrooms, bathrooms, square_feet,
lot_size, year_built, property_type, listing_agent, days_on_market,
mls_number, neighborhood) are absent in every record `from_html`
returns: no extraction logic populates them. -/
theorem c7_reserved_fields_absent (doc : Doc) (r : PropertyRecord)
    (h : from_html doc = some r) :
    r.bedrooms = none ∧ r.bathrooms = none ∧ r.square_feet = none ∧
    r.lot_size = none ∧ r.year_built = none ∧ r.property_type = none ∧
    r.listing_agent = none ∧ r.days_on_market = none ∧ r.mls_number = none ∧
    r.neighborhood = none := by
  obtain ⟨-, -, -, -, h5, h6, h7, h8, h9, h10, h11, h12, h13, h14⟩ :=
    from_html_fields doc r h
  exact ⟨h5, h6, h7, h8, h9, h10, h11, h12, h13, h14⟩

/-- Witness for C7 at the empty document. -/
theorem c7_witness :
    from_html ([] : Doc) = some {} ∧
    (({} : PropertyRecord).bedrooms = none ∧
     ({} : PropertyRecord).bathrooms = none ∧
     ({} : PropertyRecord).square_feet = none ∧
     ({} : PropertyRecord).lot_size = none ∧
     ({} : PropertyRecord).year_built = none ∧
     ({} : PropertyRecord).property_type = none ∧
     ({} : PropertyRecord).listing_agent = none ∧
     ({} : PropertyRecord).days_on_market = none ∧
     ({} : PropertyRecord).mls_number = none ∧
     ({} : PropertyRecord).neighborhood = none) :=
  ⟨rfl, c7_reserved_fields_absent [] {} rfl⟩

/-- C8: `validate_schema` is the identity on records, so the record
returned by the end-to-end `extract` equals the record produced by
parsing alone. -/
theorem c8_validator_identity :
    (∀ r : PropertyRecord, validate_schema r = r) ∧
    (∀ (a : SimpleExtractionAgent) (net : NetOutcome) (doc : Doc),
      fetch_listing_html net = Except.ok doc →
      a.extract net = Except.ok (from_html doc)) := by
  refine ⟨fun r => rfl, ?_⟩
  intro a net doc hf
  unfold SimpleExtractionAgent.extract
  rw [hf]
  show Except.ok ((from_html doc).map validate_schema) = Except.ok (from_html doc)
  cases from_html doc <;> rfl

/-- Witness for C8 at a 200 response carrying the meta-description
document. -/
theorem c8_witness :
    validate_schema {} = ({} : PropertyRecord) ∧
    SimpleExtractionAgent.extract {} (NetOutcome.response 200 cozyMetaDoc) =
      Except.ok (from_html cozyMetaDoc) :=
  ⟨c8_validator_identity.1 {},
   c8_validator_identity.2 {} (NetOutcome.response 200 cozyMetaDoc)
     cozyMetaDoc rfl⟩

/-- C9: noninterference of configuration: the four environment values
are stored on the agent by `__init__` but never consumed by extraction —
any two agents produce identical results over the same fetched
response. -/
theorem c9_config_noninterference (a1 a2 : SimpleExtractionAgent)
    (net : NetOutcome) (t p w k : Option String) :
    a1.extract net = a2.extract net ∧
    runMain a1 net = runMain a2 net ∧
    (SimpleExtractionAgent.mk t p w k).api_token = t ∧
    (SimpleExtractionAgent.mk t p w k).proxy_zone = p ∧
    (SimpleExtractionAgent.mk t p w k).web_unblock_zone = w ∧
    (SimpleExtractionAgent.mk t p w k).llm_api_key = k :=
  ⟨rfl, rfl, rfl, rfl, rfl, rfl⟩

/-- C10: `image_urls` never contains the empty string: an image whose
source attribute is present but empty is skipped exactly like one
lacking the attribute (concretely, replacing `src=""` by no `src` at all
leaves `image_urls` unchanged). -/
theorem c10_no_empty_image_url (doc : Doc) (r : PropertyRecord)
    (h : from_html doc = some r) :
    "" ∉ r.image_urls ∧
    (from_html emptySrcPairDoc).map PropertyRecord.image_urls =
      (from_html noSrcPairDoc).map PropertyRecord.image_urls := by
  have himg := (from_html_fields doc r h).2.2.2.1
  refine ⟨?_, rfl⟩
  rw [himg, imageUrlsOf_eq_srcs]
  intro hmem
  exact srcsList_ne_empty doc (List.take_subset 5 (srcsList doc) hmem)

/-- Witness for C10 at the empty-`src` document. -/
theorem c10_witness :
    from_html emptySrcPairDoc = some { image_urls := ["a.jpg"] } ∧
    "" ∉ ({ image_urls := ["a.jpg"] } : PropertyRecord).image_urls :=
  ⟨rfl,
   (c10_no_empty_image_url emptySrcPairDoc { image_urls := ["a.jpg"] } rfl).1⟩

end RealEstate
